import Mathlib

/-!
Verification of the event-search, recommendation, research cross-tabulation,
attendance and validation logic of the tourismAppBackend repository
(src/api/apiapp/event.py, recommend.py, research.py).

Modelling conventions: python floats are rationals; python datetimes are
integers via an order-preserving encoding of (year, month, day, hour, minute);
the external geodesic distance, embedding and cosine-similarity providers are
abstract function parameters; database tables are lists of rows; aborts are
the error side of Except carrying the HTTP status code; python list.sort with
a key function is the unique stable sort by that key, realised by insertion
sort.
-/

namespace Tourism

/-- Whitespace characters removed by the python str.strip method. -/
def isPySpace (c : Char) : Bool :=
  c = ' ' || c = '\t' || c = '\n' || c = '\r' || c = '\x0b' || c = '\x0c'

/-- Model of the python expression s.strip(). -/
def pyStrip (s : String) : String :=
  String.mk (((s.data.dropWhile isPySpace).reverse.dropWhile isPySpace).reverse)

/-- Model of the python expression s.replace chr(10) with a space, as used on
embedding inputs (event.py lines 65, 460, 796). -/
def pyReplaceNl (s : String) : String :=
  String.mk (s.data.map (fun c => if c = '\n' then ' ' else c))

/-- Gregorian leap-year test, as in the python datetime module. -/
def isLeap (y : Int) : Bool :=
  y % 4 = 0 && (y % 100 != 0 || y % 400 = 0)

/-- Number of days of month m in year y. -/
def daysInMonth (y m : Int) : Int :=
  if m = 2 then (if isLeap y then 29 else 28)
  else if m = 4 || m = 6 || m = 9 || m = 11 then 30
  else 31

/-- Validity condition of the python datetime constructor for the fields used
by the repository (year, month, day, hour, minute). -/
def validDate (y m d h mi : Int) : Bool :=
  1 ≤ y && y ≤ 9999 && 1 ≤ m && m ≤ 12 && 1 ≤ d && d ≤ daysInMonth y m
    && 0 ≤ h && h < 24 && 0 ≤ mi && mi < 60

/-- Order-preserving integer encoding of a calendar instant; on valid dates it
is strictly monotone with respect to the lexicographic datetime order, so
python datetime comparisons are exactly integer comparisons of encodings. -/
def dateVal (y m d h mi : Int) : Int :=
  (((y * 16 + m) * 32 + d) * 24 + h) * 60 + mi

/-- JSON date object accepted by event creation and search (integer year,
month, day with optional hour and minute). -/
structure DateJson where
  year : Int
  month : Int
  day : Int
  hour : Option Int := none
  minute : Option Int := none
  deriving DecidableEq

/-- Model of to_datetime (event.py lines 16-18): hour defaults to 23 for end
dates and 0 otherwise; minute defaults to 59 for end dates without an hour
field, and to 0 otherwise; none models a raised ValueError. -/
def to_datetime (j : DateJson) (isEnd : Bool := false) : Option Int :=
  let h : Int := j.hour.getD (if isEnd then 23 else 0)
  let mi : Int := if j.hour = none then (if isEnd then 59 else 0) else j.minute.getD 0
  if validDate j.year j.month j.day h mi then some (dateVal j.year j.month j.day h mi)
  else none

/-- Coordinate pair (location.py lines 18-21). -/
structure Point where
  lat : ℚ
  lon : ℚ
  deriving DecidableEq

/-- Row of the events table, with the columns read by the search functions. -/
structure EventRow where
  id : Nat
  displayname : String
  coords : Option Point
  embedding : List ℚ
  start : Int
  end_ : Int
  deriving DecidableEq

/-- Temporal filter shared by both search paths (event.py lines 759-761 and
785-787): skip the event when start is before earliest or end is after
latest. -/
def tempOk (earliest latest : Option Int) (r : EventRow) : Bool :=
  (match earliest with
   | none => true
   | some e0 => !decide (r.start < e0))
  && (match latest with
      | none => true
      | some l0 => !decide (r.end_ > l0))

/-- Comparison relation induced by a sort key, as used by python list.sort. -/
def keyLe {α β : Type} [LinearOrder β] (key : α → β) : α → α → Prop :=
  fun a b => key a ≤ key b

instance {α β : Type} [LinearOrder β] (key : α → β) : DecidableRel (keyLe key) :=
  fun a b => inferInstanceAs (Decidable (key a ≤ key b))

/-- Model of python list.sort with a key function: the stable ascending sort
by the key, realised as insertion sort. -/
def pySortByKey {α β : Type} [LinearOrder β] (key : α → β) (l : List α) : List α :=
  List.insertionSort (keyLe key) l

/-- Output record of get_events_by_location (event.py line 766). -/
structure LocEventOut where
  id : Nat
  displayname : String
  distance : ℚ
  location : Point
  start : Int
  end_ : Int
  deriving DecidableEq

/-- Output record built at event.py line 766. -/
def mkLocOut (d : ℚ) (c : Point) (r : EventRow) : LocEventOut :=
  { id := r.id, displayname := r.displayname, distance := d, location := c,
    start := r.start, end_ := r.end_ }

/-- Candidate list of get_events_by_location (event.py lines 753-766): the SQL
scan keeps only rows with non-null coords, then the temporal filter and the
distance bound apply. -/
def locCandidates (dist : Point → Point → ℚ) (location : Point)
    (distLimit : WithTop ℚ) (earliest latest : Option Int) (db : List EventRow) :
    List LocEventOut :=
  (db.filter (fun r => r.coords.isSome)).filterMap (fun r =>
    match r.coords with
    | some c =>
      if tempOk earliest latest r && decide ((dist location c : WithTop ℚ) ≤ distLimit)
      then some (mkLocOut (dist location c) c r)
      else none
    | none => none)

/-- Model of get_events_by_location (event.py lines 747-768): filter, then
sort ascending by distance. -/
def get_events_by_location (dist : Point → Point → ℚ) (location : Point)
    (distLimit : WithTop ℚ) (earliest latest : Option Int) (db : List EventRow) :
    List LocEventOut :=
  pySortByKey (fun e => e.distance)
    (locCandidates dist location distLimit earliest latest db)

/-- Intermediate record of get_events_by_keyword, before the embedding field
is popped (event.py line 790). -/
structure KwEventOut where
  id : Nat
  displayname : String
  embedding : List ℚ
  location : Option Point
  distance : Option ℚ
  start : Int
  end_ : Int
  deriving DecidableEq

/-- Final record of get_events_by_keyword after events[i].pop (event.py lines
798-799). -/
structure KwEventFinal where
  id : Nat
  displayname : String
  location : Option Point
  distance : Option ℚ
  start : Int
  end_ : Int
  deriving DecidableEq

def dropEmbedding (e : KwEventOut) : KwEventFinal :=
  { id := e.id, displayname := e.displayname, location := e.location,
    distance := e.distance, start := e.start, end_ := e.end_ }

/-- Spatial condition of event.py line 789: include when no location is given,
or when the event has coordinates within the distance bound. -/
def kwSpatialOk (dist : Point → Point → ℚ) (location : Option Point)
    (distLimit : WithTop ℚ) (r : EventRow) : Bool :=
  match location with
  | none => true
  | some l =>
    match r.coords with
    | none => false
    | some c => decide ((dist l c : WithTop ℚ) ≤ distLimit)

/-- Record built at event.py lines 790-794: location is the event coords when
present, distance is set only when both a search location and event coords
exist. -/
def mkKwOut (dist : Point → Point → ℚ) (location : Option Point) (r : EventRow) :
    KwEventOut :=
  { id := r.id, displayname := r.displayname, embedding := r.embedding,
    location := r.coords,
    distance := match location, r.coords with
      | some l, some c => some (dist l c)
      | _, _ => none,
    start := r.start, end_ := r.end_ }

/-- Candidate list of get_events_by_keyword (event.py lines 780-794). -/
def kwCandidates (dist : Point → Point → ℚ) (location : Option Point)
    (distLimit : WithTop ℚ) (earliest latest : Option Int) (db : List EventRow) :
    List KwEventOut :=
  db.filterMap (fun r =>
    if tempOk earliest latest r && kwSpatialOk dist location distLimit r
    then some (mkKwOut dist location r)
    else none)

/-- Normalised query text submitted to the embedding provider (event.py line
796). -/
def kwQueryText (query : String) : String :=
  pyReplaceNl (pyStrip query)

/-- Ranked candidate list of get_events_by_keyword (event.py lines 795-797):
with at least two candidates, sort by descending cosine similarity to the
query embedding (python sort key is the negated similarity). -/
def kwRanked (dist : Point → Point → ℚ) (sim : List ℚ → List ℚ → ℚ)
    (embedQ : String → List ℚ) (query : String) (earliest latest : Option Int)
    (location : Option Point) (distLimit : WithTop ℚ) (db : List EventRow) :
    List KwEventOut :=
  let events := kwCandidates dist location distLimit earliest latest db
  if 2 ≤ events.length then
    pySortByKey (fun e => -(sim (embedQ (kwQueryText query)) e.embedding)) events
  else events

/-- Model of get_events_by_keyword (event.py lines 770-800). The second
component of the result counts calls to the embedding provider; error 400
models abort(400) on a blank query. -/
def get_events_by_keyword (dist : Point → Point → ℚ) (sim : List ℚ → List ℚ → ℚ)
    (embedQ : String → List ℚ) (query : String) (earliest latest : Option Int)
    (location : Option Point) (distLimit : WithTop ℚ) (db : List EventRow) :
    Except Nat (List KwEventFinal × Nat) :=
  if pyStrip query = "" then .error 400
  else
    let events := kwCandidates dist location distLimit earliest latest db
    if 2 ≤ events.length then
      .ok ((kwRanked dist sim embedQ query earliest latest location distLimit db).map
        dropEmbedding, 1)
    else
      .ok (events.map dropEmbedding, 0)

/-- URL query arguments of the search route (event.py lines 802-875). -/
structure SearchArgs where
  query : Option String := none
  lat : Option String := none
  lon : Option String := none
  radius : Option String := none
  deriving DecidableEq

/-- Result shape of the search route: one of the two search functions. -/
inductive SearchOut where
  | byLocation (events : List LocEventOut)
  | byKeyword (events : List KwEventFinal)
  deriving DecidableEq

/-- Radius argument handling of the search route (event.py line 863): a
missing radius defaults to the string inf whose float value is positive
infinity; a supplied radius is parsed by the python float builtin, with none
modelling a ValueError (hence abort(400) at the caller). -/
def parseRadius (parseFloat : String → Option ℚ) (radArg : Option String) :
    Option (WithTop ℚ) :=
  match radArg with
  | none => some (⊤ : WithTop ℚ)
  | some rs =>
    match parseFloat rs with
    | some r => some ((r : ℚ) : WithTop ℚ)
    | none => none

/-- Branch of the event_search route taken when both lat and lon are present
(event.py lines 859-871). -/
def event_search_latlon (dist : Point → Point → ℚ) (sim : List ℚ → List ℚ → ℚ)
    (embedQ : String → List ℚ) (parseFloat : String → Option ℚ)
    (startdt enddt : Option Int) (queryArg radiusArg : Option String)
    (lats lons : String) (db : List EventRow) : Except Nat SearchOut :=
  match parseFloat lats, parseFloat lons with
  | some la, some lo =>
    (match parseRadius parseFloat radiusArg with
     | none => .error 400
     | some rad =>
       if rad < 0 then .error 400
       else
         match queryArg with
         | some q =>
           (get_events_by_keyword dist sim embedQ q startdt enddt
             (some { lat := la, lon := lo }) rad db).map (fun res => .byKeyword res.1)
         | none =>
           .ok (.byLocation (get_events_by_location dist { lat := la, lon := lo }
             rad startdt enddt db)))
  | _, _ => .error 400

/-- Model of the event_search route dispatch (event.py lines 836-875). The
date-window parsing of lines 837-858 is abstracted into the earliestR and
latestR inputs (the error side models a ValueError there, hence abort(400));
parseFloat abstracts the python float builtin on strings, with none modelling
a ValueError. -/
def event_search (dist : Point → Point → ℚ) (sim : List ℚ → List ℚ → ℚ)
    (embedQ : String → List ℚ) (parseFloat : String → Option ℚ)
    (earliestR latestR : Except Unit (Option Int)) (args : SearchArgs)
    (db : List EventRow) : Except Nat SearchOut :=
  match earliestR with
  | .error _ => .error 400
  | .ok startdt =>
  match latestR with
  | .error _ => .error 400
  | .ok enddt =>
  match args.lat, args.lon with
  | some lats, some lons =>
    event_search_latlon dist sim embedQ parseFloat startdt enddt args.query args.radius
      lats lons db
  | _, _ =>
    match args.query with
    | some q =>
      (get_events_by_keyword dist sim embedQ q startdt enddt none ⊤ db).map
        (fun res => .byKeyword res.1)
    | none => .error 400

/-- Row of the locations table: composite key (placeid, eventid) with a visit
counter. -/
structure LocRow where
  eventid : Nat
  placeid : String
  visits : Nat
  deriving DecidableEq

/-- Place object returned by the external place-search provider, with the
fields read by recommend.py. -/
structure ProviderPlace where
  id : String
  name : String
  address : String
  location : Point
  deriving DecidableEq

/-- Local Recommendation dataclass of recommend.py lines 65-69. -/
structure Recommendation where
  index : Nat
  place : ProviderPlace
  visits : Nat
  deriving DecidableEq

/-- Provider results paired with their zero-based index (recommend.py lines
70-72); every visit counter starts at zero. -/
def mkRecs (ps : List ProviderPlace) : List Recommendation :=
  ps.enum.map (fun ip => { index := ip.1, place := ip.2, visits := 0 })

/-- Rows of the locations table whose event is attended by the requesting user
(the WHERE clause of recommend.py line 88). -/
def relevantRows (locs : List LocRow) (events : List Nat) : List LocRow :=
  locs.filter (fun r => decide (r.eventid ∈ events))

/-- Sum of visit counters over the attended events for one place id. -/
def userVisits (locs : List LocRow) (events : List Nat) (pid : String) : Nat :=
  (((relevantRows locs events).filter (fun r => decide (r.placeid = pid))).map
    (fun r => r.visits)).sum

/-- Result of the GROUP BY query of recommend.py line 88: one pair per
distinct place id among the relevant rows, carrying the visit sum, in
first-occurrence order. -/
def groupSums (locs : List LocRow) (events : List Nat) : List (String × Nat) :=
  (((relevantRows locs events).map (fun r => r.placeid)).dedup).map
    (fun pid => (pid, userVisits locs events pid))

/-- Inner loop of recommend.py lines 91-94: the first recommendation whose
place id matches the row gets the summed visit count. -/
def setFirstVisits : List Recommendation → String → Nat → List Recommendation
  | [], _, _ => []
  | r :: rest, pid, v =>
    if r.place.id = pid then { r with visits := v } :: rest
    else r :: setFirstVisits rest pid v

/-- Outer loop of recommend.py lines 89-94 over the grouped query rows. -/
def applyGroups (recs : List Recommendation) (gs : List (String × Nat)) :
    List Recommendation :=
  gs.foldl (fun acc g => setFirstVisits acc g.1 g.2) recs

/-- Ranked recommendation list (recommend.py line 95): ascending stable sort
by visits + index. -/
def recommendRanked (ps : List ProviderPlace) (locs : List LocRow)
    (events : List Nat) : List Recommendation :=
  pySortByKey (fun r => r.visits + r.index)
    (applyGroups (mkRecs ps) (groupSums locs events))

/-- Output record of the recommendation endpoint (recommend.py lines 96-106). -/
structure RecOut where
  name : String
  address : String
  location : Point
  distance : ℚ
  deriving DecidableEq

/-- Model of the ranking core of get_recommendations (recommend.py lines
65-107), from the provider response to the JSON output list. -/
def get_recommendations (dist : Point → Point → ℚ) (origin : Point)
    (ps : List ProviderPlace) (locs : List LocRow) (events : List Nat) :
    List RecOut :=
  (recommendRanked ps locs events).map (fun r =>
    { name := r.place.name, address := r.place.address,
      location := r.place.location, distance := dist origin r.place.location })

/-- Python exception kinds relevant to recommend.py lines 43-48. -/
inductive PyErr where
  | valueError
  | typeError
  deriving DecidableEq

/-- Python values of the shapes reachable in the radius computation. -/
inductive PyVal where
  | str (s : String)
  | int (n : Int)
  | float (x : ℚ)
  deriving DecidableEq

/-- Python multiplication on those value shapes: a str times an int
replicates the string, a str times a float raises TypeError, numeric operands
multiply. -/
def pyMul : PyVal → PyVal → Except PyErr PyVal
  | .str s, .int n => .ok (.str (String.join (List.replicate n.toNat s)))
  | .int n, .str s => .ok (.str (String.join (List.replicate n.toNat s)))
  | .str _, .float _ => .error .typeError
  | .float _, .str _ => .error .typeError
  | .str _, .str _ => .error .typeError
  | .int a, .int b => .ok (.int (a * b))
  | .float a, .float b => .ok (.float (a * b))
  | .int a, .float b => .ok (.float ((a : ℚ) * b))
  | .float a, .int b => .ok (.float (a * (b : ℚ)))

/-- Python float builtin on the same value shapes: parses a string (none from
the parse models a ValueError) and converts numeric values. -/
def pyFloat (parse : String → Option ℚ) : PyVal → Except PyErr ℚ
  | .str s =>
    match parse s with
    | some x => .ok x
    | none => .error .valueError
  | .int n => .ok (n : ℚ)
  | .float x => .ok x

/-- Model of the radius computation of get_recommendations (recommend.py
lines 43-48): radius defaults to 16093.44 metres; when the rad argument is
supplied the code evaluates float of args rad times 1609.344 inside a try
block that catches only ValueError. -/
def recommendRadius (parse : String → Option ℚ) (radArg : Option String) :
    Except PyErr ℚ :=
  match radArg with
  | none => .ok (16093.44 : ℚ)
  | some s =>
    match pyMul (.str s) (.float (1609.344 : ℚ)) >>= pyFloat parse with
    | .ok r => .ok r
    | .error .valueError => .ok (16093.44 : ℚ)
    | .error .typeError => .error .typeError

/-- Event entry of the research endpoint (research.py line 54). -/
structure EventSummary where
  id : Nat
  displayname : String
  deriving DecidableEq

/-- Place entry of the research endpoint (research.py line 75). -/
structure PlaceSummary where
  id : String
  name : String
  coords : Point
  types : List String
  deriving DecidableEq

/-- Inner python dict of the visit matrix: place id keys in insertion order. -/
abbrev InnerMap := List (String × Nat)

/-- Outer python dict of the visit matrix: event id keys in insertion order. -/
abbrev VisitMap := List (Nat × InnerMap)

/-- Inner dict comprehension of research.py line 83: every place id maps to
zero. -/
def innerInit (pids : List String) : InnerMap :=
  pids.map (fun p => (p, 0))

/-- Outer dict comprehension of research.py line 83. -/
def locsInit (eids : List Nat) (pids : List String) : VisitMap :=
  eids.map (fun e => (e, innerInit pids))

/-- Assignment to an existing key of an inner dict (key order preserved). -/
def setInner (m : InnerMap) (pid : String) (v : Nat) : InnerMap :=
  m.map (fun kv => if kv.1 = pid then (kv.1, v) else kv)

/-- Assignment locs at eid at pid := v of research.py line 88. -/
def setCell (locs : VisitMap) (eid : Nat) (pid : String) (v : Nat) : VisitMap :=
  locs.map (fun ev => if ev.1 = eid then (ev.1, setInner ev.2 pid v) else ev)

/-- Fill loop of research.py lines 86-88 over the queried rows. -/
def fillRows (locs : VisitMap) (rows : List LocRow) : VisitMap :=
  rows.foldl (fun acc r => setCell acc r.eventid r.placeid r.visits) locs

/-- Dict lookup visits at eid at pid on the modelled matrix. -/
def lookupCell (m : VisitMap) (eid : Nat) (pid : String) : Option Nat :=
  match m.find? (fun ev => decide (ev.1 = eid)) with
  | none => none
  | some ev => (ev.2.find? (fun kv => decide (kv.1 = pid))).map (fun kv => kv.2)

/-- Result object of get_location_data (research.py line 89). -/
structure ResearchOut where
  events : List EventSummary
  places : List PlaceSummary
  visits : VisitMap
  deriving DecidableEq

/-- Model of get_location_data (research.py lines 78-89): build the dense
default-zero matrix over the given id lists, query the locations table
restricted to those ids only when both lists are non-empty, and overwrite the
matching cells. -/
def get_location_data (events : List EventSummary) (places : List PlaceSummary)
    (db : List LocRow) : ResearchOut :=
  let eids := events.map (fun e => e.id)
  let pids := places.map (fun p => p.id)
  let locs := locsInit eids pids
  let filled :=
    if !eids.isEmpty && !pids.isEmpty then
      fillRows locs (db.filter (fun r =>
        decide (r.eventid ∈ eids) && decide (r.placeid ∈ pids)))
    else locs
  { events := events, places := places, visits := filled }

/-- Database state seen by event_add_user: the event ids present in the
events table and the rows of the attendees table. -/
structure DBState where
  events : List Nat
  attendees : List (Nat × Nat)
  deriving DecidableEq

/-- Model of event_add_user (event.py lines 283-307): 404 when the event does
not exist, 403 when a user adds someone else, 201 with a fresh attendee row
when the pair is absent, 204 with the state unchanged otherwise. -/
def event_add_user (guserid : Nat) (eventid userid : Nat) (db : DBState) :
    Except Nat (Nat × DBState) :=
  if (db.events.filter (fun e => decide (e = eventid))).length = 0 then
    .error 404
  else if userid ≠ guserid then
    .error 403
  else if (db.attendees.filter (fun a => decide (a = (guserid, eventid)))).length = 0 then
    .ok (201, { db with attendees := db.attendees ++ [(guserid, eventid)] })
  else
    .ok (204, db)

/-- Field-level validation error (event.py lines 36-56). -/
structure FieldError where
  field : String
  description : String
  deriving DecidableEq

/-- Location object of the creation request body. -/
structure LocJson where
  lat : ℚ
  lon : ℚ
  deriving DecidableEq

/-- Model of validate_create_inputs (event.py lines 29-57), slip included:
line 48 of the source assigns the parsed end datetime to startdt instead of
enddt, so enddt is still None when the order comparison on line 51 runs. -/
def validate_create_inputs (displayname : String) (start end_ : DateJson)
    (description : Option String := none) (location : Option LocJson := none) :
    List FieldError :=
  let e1 : List FieldError :=
    if pyStrip displayname = "" then
      [{ field := "displayname", description := "You must enter a display name." }]
    else []
  let e2 : List FieldError :=
    if 255 < displayname.length then
      [{ field := "displayname",
         description := "Display name must be less than 256 characters long." }]
    else []
  let e3 : List FieldError :=
    match description with
    | some d =>
      if 10000 < d.length then
        [{ field := "description",
           description := "Description must be at most 10000 characters long." }]
      else []
    | none => []
  let enddt : Option Int := none
  let se1 : Option Int × List FieldError :=
    match to_datetime start with
    | some v => (some v, [])
    | none => (none, [{ field := "start", description := "Not a valid date." }])
  let se2 : Option Int × List FieldError :=
    match to_datetime end_ true with
    | some v => (some v, se1.2)
    | none => (se1.1, se1.2 ++ [{ field := "end", description := "Not a valid date." }])
  let e6 : List FieldError :=
    match se2.1, enddt with
    | some sv, some ev =>
      if ev < sv then
        [{ field := "end",
           description := "End date cannot be earlier than start date." }]
      else []
    | _, _ => []
  let e7 : List FieldError :=
    match location with
    | some l =>
      (if !decide (-90 ≤ l.lat ∧ l.lat ≤ 90) then
        [{ field := "location",
           description := "Latitude must be between -90 and 90 degrees." }]
      else []) ++
      (if !decide (-180 ≤ l.lon ∧ l.lon ≤ 180) then
        [{ field := "location",
           description := "Longitude must be between -180 and 180 degrees." }]
      else [])
    | none => []
  e1 ++ e2 ++ e3 ++ se2.2 ++ e6 ++ e7

/-! Helper lemmas about the stable sort model. -/

theorem pySortByKey_pairwise {α β : Type} [LinearOrder β] (key : α → β) (l : List α) :
    (pySortByKey key l).Pairwise (keyLe key) := by
  haveI : IsTotal α (keyLe key) := ⟨fun a b => le_total (key a) (key b)⟩
  haveI : IsTrans α (keyLe key) := ⟨fun a b c h1 h2 => le_trans h1 h2⟩
  exact List.sorted_insertionSort (keyLe key) l

theorem mem_pySortByKey {α β : Type} [LinearOrder β] {key : α → β} {l : List α} {a : α} :
    a ∈ pySortByKey key l ↔ a ∈ l :=
  (List.perm_insertionSort (keyLe key) l).mem_iff

/-! Helper lemmas about the temporal filter. -/

theorem tempOk_earliest {earliest latest : Option Int} {r : EventRow}
    (h : tempOk earliest latest r = true) {e0 : Int} (he : earliest = some e0) :
    e0 ≤ r.start := by
  subst he
  unfold tempOk at h
  rw [Bool.and_eq_true] at h
  have h1 := h.1
  simp only [Bool.not_eq_true', decide_eq_false_iff_not, not_lt] at h1
  exact h1

theorem tempOk_latest {earliest latest : Option Int} {r : EventRow}
    (h : tempOk earliest latest r = true) {l0 : Int} (hl : latest = some l0) :
    r.end_ ≤ l0 := by
  subst hl
  unfold tempOk at h
  rw [Bool.and_eq_true] at h
  have h2 := h.2
  simp only [Bool.not_eq_true', decide_eq_false_iff_not, not_lt, gt_iff_lt] at h2
  exact h2

/-! Helper lemmas about the location search path. -/

theorem locCandidates_mem {dist : Point → Point → ℚ} {location : Point}
    {distLimit : WithTop ℚ} {earliest latest : Option Int} {db : List EventRow}
    {ev : LocEventOut} :
    ev ∈ locCandidates dist location distLimit earliest latest db ↔
      ∃ r ∈ db, ∃ c, r.coords = some c ∧ tempOk earliest latest r = true ∧
        ((dist location c : WithTop ℚ) ≤ distLimit) ∧
        ev = mkLocOut (dist location c) c r := by
  unfold locCandidates
  rw [List.mem_filterMap]
  constructor
  · rintro ⟨r, hr, hfr⟩
    rw [List.mem_filter] at hr
    obtain ⟨hrdb, -⟩ := hr
    split at hfr
    · split at hfr
      · rename_i c hc hcond
        rw [Bool.and_eq_true, decide_eq_true_eq] at hcond
        exact ⟨r, hrdb, c, hc, hcond.1, hcond.2, (Option.some_inj.mp hfr).symm⟩
      · exact absurd hfr (by simp)
    · exact absurd hfr (by simp)
  · rintro ⟨r, hrdb, c, hc, ht, hd, hev⟩
    refine ⟨r, List.mem_filter.mpr ⟨hrdb, by rw [hc]; rfl⟩, ?_⟩
    simp only [hc]
    rw [if_pos (by rw [Bool.and_eq_true, decide_eq_true_eq]; exact ⟨ht, hd⟩), hev]

theorem get_events_by_location_mem {dist : Point → Point → ℚ} {location : Point}
    {distLimit : WithTop ℚ} {earliest latest : Option Int} {db : List EventRow}
    {ev : LocEventOut} :
    ev ∈ get_events_by_location dist location distLimit earliest latest db ↔
      ev ∈ locCandidates dist location distLimit earliest latest db :=
  mem_pySortByKey

/-! Helper lemmas about the keyword search path. -/

theorem kwCandidates_mem {dist : Point → Point → ℚ} {location : Option Point}
    {distLimit : WithTop ℚ} {earliest latest : Option Int} {db : List EventRow}
    {ev : KwEventOut} :
    ev ∈ kwCandidates dist location distLimit earliest latest db ↔
      ∃ r ∈ db, tempOk earliest latest r = true ∧
        kwSpatialOk dist location distLimit r = true ∧ ev = mkKwOut dist location r := by
  unfold kwCandidates
  rw [List.mem_filterMap]
  constructor
  · rintro ⟨r, hr, hfr⟩
    by_cases hcond : (tempOk earliest latest r &&
        kwSpatialOk dist location distLimit r) = true
    · rw [if_pos hcond] at hfr
      rw [Bool.and_eq_true] at hcond
      exact ⟨r, hr, hcond.1, hcond.2, (Option.some_inj.mp hfr).symm⟩
    · rw [if_neg hcond] at hfr; exact absurd hfr (by simp)
  · rintro ⟨r, hr, ht, hs, hev⟩
    exact ⟨r, hr, by rw [if_pos (by rw [Bool.and_eq_true]; exact ⟨ht, hs⟩), hev]⟩

theorem kwRanked_mem {dist : Point → Point → ℚ} {sim : List ℚ → List ℚ → ℚ}
    {embedQ : String → List ℚ} {query : String} {earliest latest : Option Int}
    {location : Option Point} {distLimit : WithTop ℚ} {db : List EventRow}
    {ev : KwEventOut} :
    ev ∈ kwRanked dist sim embedQ query earliest latest location distLimit db ↔
      ev ∈ kwCandidates dist location distLimit earliest latest db := by
  show ev ∈ (if 2 ≤ (kwCandidates dist location distLimit earliest latest db).length
      then pySortByKey (fun e => -(sim (embedQ (kwQueryText query)) e.embedding))
        (kwCandidates dist location distLimit earliest latest db)
      else kwCandidates dist location distLimit earliest latest db) ↔ _
  by_cases h : 2 ≤ (kwCandidates dist location distLimit earliest latest db).length
  · rw [if_pos h]; exact mem_pySortByKey
  · rw [if_neg h]

theorem kwSpatialOk_some {dist : Point → Point → ℚ} {l : Point}
    {distLimit : WithTop ℚ} {r : EventRow}
    (h : kwSpatialOk dist (some l) distLimit r = true) :
    ∃ c, r.coords = some c ∧ ((dist l c : WithTop ℚ) ≤ distLimit) := by
  unfold kwSpatialOk at h
  rcases hc : r.coords with - | c
  · rw [hc] at h; exact absurd h (by simp)
  · rw [hc] at h
    rw [decide_eq_true_eq] at h
    exact ⟨c, rfl, h⟩

/-! Helper lemmas about the recommendation ranking. -/

/-- Update of one recommendation by the grouped query rows, used to
characterise the assignment loop when the place ids are distinct. -/
def updateByLookup (gs : List (String × Nat)) (r : Recommendation) : Recommendation :=
  match gs.lookup r.place.id with
  | some v => { r with visits := v }
  | none => r

theorem setFirstVisits_map_id (recs : List Recommendation) (pid : String) (v : Nat) :
    (setFirstVisits recs pid v).map (fun r => r.place.id) =
      recs.map (fun r => r.place.id) := by
  induction recs with
  | nil => rfl
  | cons r rest ih =>
    unfold setFirstVisits
    by_cases h : r.place.id = pid
    · rw [if_pos h]; simp
    · rw [if_neg h]; simp [ih]

theorem setFirstVisits_eq_map {recs : List Recommendation} {pid : String} {v : Nat}
    (h : (recs.map (fun r => r.place.id)).Nodup) :
    setFirstVisits recs pid v =
      recs.map (fun r => if r.place.id = pid then { r with visits := v } else r) := by
  induction recs with
  | nil => rfl
  | cons r rest ih =>
    rw [List.map_cons, List.nodup_cons] at h
    unfold setFirstVisits
    by_cases hr : r.place.id = pid
    · rw [if_pos hr, List.map_cons, if_pos hr]
      have : ∀ x ∈ rest, (if x.place.id = pid then { x with visits := v } else x) = x := by
        intro x hx
        rw [if_neg]
        intro hxp
        exact h.1 (hr ▸ hxp ▸ List.mem_map_of_mem (fun r => r.place.id) hx)
      rw [List.map_congr_left this, List.map_id']
    · rw [if_neg hr, List.map_cons, if_neg hr, ih h.2]

theorem lookup_eq_none_of_not_mem_keys {gs : List (String × Nat)} {p : String}
    (h : p ∉ gs.map Prod.fst) : gs.lookup p = none := by
  induction gs with
  | nil => rfl
  | cons g rest ih =>
    rw [List.map_cons, List.mem_cons, not_or] at h
    cases g with
    | mk k v =>
      rw [List.lookup_cons]
      have : (p == k) = false := by
        rw [beq_eq_false_iff_ne]
        exact h.1
      rw [this]
      exact ih h.2

theorem applyGroups_eq_map {recs : List Recommendation} {gs : List (String × Nat)}
    (h1 : (recs.map (fun r => r.place.id)).Nodup) (h2 : (gs.map Prod.fst).Nodup) :
    applyGroups recs gs = recs.map (updateByLookup gs) := by
  induction gs generalizing recs with
  | nil =>
    have : ∀ x ∈ recs, updateByLookup [] x = x := by
      intro x _
      unfold updateByLookup
      rfl
    rw [applyGroups, List.foldl_nil, List.map_congr_left this, List.map_id']
  | cons g rest ih =>
    cases g with
    | mk p v =>
      rw [List.map_cons, List.nodup_cons] at h2
      have step : applyGroups recs ((p, v) :: rest) =
          applyGroups (setFirstVisits recs p v) rest := by
        rw [applyGroups, applyGroups, List.foldl_cons]
      rw [step, ih (by rw [setFirstVisits_map_id]; exact h1) h2.2,
        setFirstVisits_eq_map h1, List.map_map]
      refine List.map_congr_left ?_
      intro r _
      show updateByLookup rest (if r.place.id = p then { r with visits := v } else r) =
        updateByLookup ((p, v) :: rest) r
      by_cases hr : r.place.id = p
      · rw [if_pos hr]
        unfold updateByLookup
        rw [lookup_eq_none_of_not_mem_keys (show r.place.id ∉ rest.map Prod.fst from hr ▸ h2.1),
          List.lookup_cons]
        have : (r.place.id == p) = true := by rw [beq_iff_eq]; exact hr
        rw [this]
      · rw [if_neg hr]
        unfold updateByLookup
        rw [List.lookup_cons]
        have : (r.place.id == p) = false := by rw [beq_eq_false_iff_ne]; exact hr
        rw [this]

theorem lookup_map_self {β : Type} (f : String → β) (l : List String) (p : String) :
    (l.map (fun q => (q, f q))).lookup p = if p ∈ l then some (f p) else none := by
  induction l with
  | nil => rfl
  | cons q rest ih =>
    rw [List.map_cons, List.lookup_cons]
    by_cases h : p = q
    · subst h
      rw [beq_self_eq_true]
      rw [if_pos (List.mem_cons_self p rest)]
    · have : (p == q) = false := by rw [beq_eq_false_iff_ne]; exact h
      rw [this, ih]
      by_cases hm : p ∈ rest
      · rw [if_pos hm, if_pos (List.mem_cons_of_mem q hm)]
      · rw [if_neg hm, if_neg (by rw [List.mem_cons, not_or]; exact ⟨h, hm⟩)]

theorem groupSums_keys_nodup (locs : List LocRow) (events : List Nat) :
    ((groupSums locs events).map Prod.fst).Nodup := by
  unfold groupSums
  rw [List.map_map]
  have : (Prod.fst ∘ fun pid => (pid, userVisits locs events pid)) = id := rfl
  rw [this, List.map_id]
  exact List.nodup_dedup _

theorem lookup_groupSums (locs : List LocRow) (events : List Nat) (pid : String) :
    (match (groupSums locs events).lookup pid with
     | some v => v
     | none => 0) = userVisits locs events pid := by
  unfold groupSums
  rw [lookup_map_self]
  by_cases h : pid ∈ ((relevantRows locs events).map (fun r => r.placeid)).dedup
  · rw [if_pos h]
  · rw [if_neg h]
    rw [List.mem_dedup] at h
    have : (relevantRows locs events).filter (fun r => decide (r.placeid = pid)) = [] := by
      rw [List.filter_eq_nil_iff]
      intro r hr hrp
      rw [decide_eq_true_eq] at hrp
      exact h (hrp ▸ List.mem_map_of_mem (fun r => r.placeid) hr)
    unfold userVisits
    rw [this]
    rfl

theorem mkRecs_map_id (ps : List ProviderPlace) :
    (mkRecs ps).map (fun r => r.place.id) = ps.map (fun p => p.id) := by
  unfold mkRecs
  rw [List.map_map]
  have : ((fun r : Recommendation => r.place.id) ∘
      fun ip : Nat × ProviderPlace => ({ index := ip.1, place := ip.2, visits := 0 } :
        Recommendation)) = (fun p : ProviderPlace => p.id) ∘ Prod.snd := rfl
  rw [this, ← List.map_map, List.enum_map_snd]

theorem mkRecs_mem {ps : List ProviderPlace} {r : Recommendation} (h : r ∈ mkRecs ps) :
    r.visits = 0 ∧ ps[r.index]? = some r.place := by
  unfold mkRecs at h
  rw [List.mem_map] at h
  obtain ⟨ip, hip, hr⟩ := h
  rw [List.mem_enum_iff_getElem?] at hip
  subst hr
  exact ⟨rfl, hip⟩

theorem recommendRanked_mem {ps : List ProviderPlace} {locs : List LocRow}
    {events : List Nat} {r : Recommendation} (hn : (ps.map (fun p => p.id)).Nodup)
    (h : r ∈ recommendRanked ps locs events) :
    ps[r.index]? = some r.place ∧ r.visits = userVisits locs events r.place.id := by
  unfold recommendRanked at h
  rw [mem_pySortByKey, applyGroups_eq_map (by rw [mkRecs_map_id]; exact hn)
    (groupSums_keys_nodup locs events), List.mem_map] at h
  obtain ⟨r0, hr0, hr⟩ := h
  obtain ⟨hv0, hp0⟩ := mkRecs_mem hr0
  subst hr
  unfold updateByLookup
  have hval := lookup_groupSums locs events r0.place.id
  rcases hg : (groupSums locs events).lookup r0.place.id with - | v
  · rw [hg] at hval
    exact ⟨hp0, by rw [← hval, hv0]⟩
  · rw [hg] at hval
    exact ⟨hp0, hval⟩

theorem recommendRanked_pairwise (ps : List ProviderPlace) (locs : List LocRow)
    (events : List Nat) :
    (recommendRanked ps locs events).Pairwise
      (fun a b => a.visits + a.index ≤ b.visits + b.index) := by
  have h := pySortByKey_pairwise (fun r : Recommendation => r.visits + r.index)
    (applyGroups (mkRecs ps) (groupSums locs events))
  exact h

/-! Helper lemmas about the visit matrix of the research endpoint. -/

/-- Inner dict access on the modelled matrix. -/
def innerGet (m : InnerMap) (pid : String) : Option Nat :=
  (m.find? (fun kv => decide (kv.1 = pid))).map (fun kv => kv.2)

theorem innerGet_cons (kv : String × Nat) (rest : InnerMap) (pid : String) :
    innerGet (kv :: rest) pid =
      if kv.1 = pid then some kv.2 else innerGet rest pid := by
  unfold innerGet
  rw [List.find?_cons]
  by_cases h : kv.1 = pid
  · rw [if_pos h]; simp [h]
  · rw [if_neg h]; simp [h]

theorem lookupCell_eq_innerGet (m : VisitMap) (eid : Nat) (pid : String) :
    lookupCell m eid pid =
      match m.find? (fun ev => decide (ev.1 = eid)) with
      | none => none
      | some ev => innerGet ev.2 pid := rfl

theorem lookupCell_cons (ev : Nat × InnerMap) (rest : VisitMap) (eid : Nat)
    (pid : String) :
    lookupCell (ev :: rest) eid pid =
      if ev.1 = eid then innerGet ev.2 pid else lookupCell rest eid pid := by
  rw [lookupCell_eq_innerGet, List.find?_cons]
  by_cases h : ev.1 = eid
  · rw [if_pos h]; simp [h, innerGet]
  · have hd : decide (ev.1 = eid) = false := by
      rw [decide_eq_false_iff_not]; exact h
    rw [hd, if_neg h]
    rfl

theorem innerGet_setInner_same {m : InnerMap} {pid : String} {v : Nat}
    (hp : pid ∈ m.map Prod.fst) : innerGet (setInner m pid v) pid = some v := by
  induction m with
  | nil => simp at hp
  | cons kv rest ih =>
    obtain ⟨q, w⟩ := kv
    rw [List.map_cons, List.mem_cons] at hp
    show innerGet ((if q = pid then (q, v) else (q, w)) :: setInner rest pid v) pid = some v
    by_cases h : q = pid
    · rw [if_pos h, innerGet_cons, if_pos h]
    · rw [if_neg h, innerGet_cons, if_neg h]
      exact ih (hp.resolve_left (fun h1 => h h1.symm))

theorem innerGet_setInner_ne {m : InnerMap} {p0 pid : String} {v : Nat}
    (h : ¬p0 = pid) : innerGet (setInner m p0 v) pid = innerGet m pid := by
  induction m with
  | nil => rfl
  | cons kv rest ih =>
    obtain ⟨q, w⟩ := kv
    show innerGet ((if q = p0 then (q, v) else (q, w)) :: setInner rest p0 v) pid =
      innerGet ((q, w) :: rest) pid
    by_cases hq : q = p0
    · rw [if_pos hq, innerGet_cons, innerGet_cons]
      have : ¬q = pid := fun hc => h (hq ▸ hc)
      rw [if_neg this, if_neg this, ih]
    · rw [if_neg hq, innerGet_cons, innerGet_cons]
      by_cases hqp : q = pid
      · rw [if_pos hqp, if_pos hqp]
      · rw [if_neg hqp, if_neg hqp, ih]

theorem innerGet_innerInit (pids : List String) (pid : String) :
    innerGet (innerInit pids) pid = if pid ∈ pids then some 0 else none := by
  induction pids with
  | nil => rfl
  | cons q rest ih =>
    show innerGet ((q, 0) :: innerInit rest) pid = _
    rw [innerGet_cons]
    by_cases h : q = pid
    · rw [if_pos h, if_pos (h ▸ List.mem_cons_self q rest)]
    · rw [if_neg h, ih]
      by_cases hm : pid ∈ rest
      · rw [if_pos hm, if_pos (List.mem_cons_of_mem q hm)]
      · rw [if_neg hm, if_neg (by rw [List.mem_cons, not_or]; exact ⟨fun hc => h hc.symm, hm⟩)]

theorem setInner_map_fst (m : InnerMap) (pid : String) (v : Nat) :
    (setInner m pid v).map Prod.fst = m.map Prod.fst := by
  unfold setInner
  rw [List.map_map]
  refine List.map_congr_left ?_
  intro kv _
  by_cases h : kv.1 = pid
  · simp [h]
  · simp [h]

theorem setCell_map_fst (locs : VisitMap) (eid : Nat) (pid : String) (v : Nat) :
    (setCell locs eid pid v).map Prod.fst = locs.map Prod.fst := by
  unfold setCell
  rw [List.map_map]
  refine List.map_congr_left ?_
  intro ev _
  by_cases h : ev.1 = eid
  · simp [h]
  · simp [h]

theorem setCell_inner_keys {locs : VisitMap} {pids : List String}
    (h : ∀ row ∈ locs, row.2.map Prod.fst = pids) (eid : Nat) (pid : String) (v : Nat) :
    ∀ row ∈ setCell locs eid pid v, row.2.map Prod.fst = pids := by
  intro row hrow
  unfold setCell at hrow
  rw [List.mem_map] at hrow
  obtain ⟨row0, hrow0, hr⟩ := hrow
  by_cases he : row0.1 = eid
  · rw [if_pos he] at hr
    rw [← hr]
    show (setInner row0.2 pid v).map Prod.fst = pids
    rw [setInner_map_fst]
    exact h row0 hrow0
  · rw [if_neg he] at hr
    rw [← hr]
    exact h row0 hrow0

theorem setCell_cons (e1 : Nat) (inner : InnerMap) (rest : VisitMap) (eid : Nat)
    (pid : String) (v : Nat) :
    setCell ((e1, inner) :: rest) eid pid v =
      (if e1 = eid then (e1, setInner inner pid v) else (e1, inner)) ::
        setCell rest eid pid v := rfl

theorem lookupCell_setCell_same {locs : VisitMap} {pids : List String} {eid : Nat}
    {pid : String} {v : Nat} (hkeys : ∀ row ∈ locs, row.2.map Prod.fst = pids)
    (he : eid ∈ locs.map Prod.fst) (hp : pid ∈ pids) :
    lookupCell (setCell locs eid pid v) eid pid = some v := by
  induction locs with
  | nil => simp at he
  | cons row rest ih =>
    obtain ⟨e1, inner⟩ := row
    rw [List.map_cons, List.mem_cons] at he
    rw [setCell_cons]
    by_cases h : e1 = eid
    · rw [if_pos h, lookupCell_cons, if_pos h]
      refine innerGet_setInner_same ?_
      rw [hkeys (e1, inner) (List.mem_cons_self _ _)]
      exact hp
    · rw [if_neg h, lookupCell_cons, if_neg h]
      exact ih (fun r hr => hkeys r (List.mem_cons_of_mem _ hr))
        (he.resolve_left (fun h1 => h h1.symm))

theorem lookupCell_setCell_other {locs : VisitMap} {e0 eid : Nat} {p0 pid : String}
    {v : Nat} (h : ¬(e0 = eid ∧ p0 = pid)) :
    lookupCell (setCell locs e0 p0 v) eid pid = lookupCell locs eid pid := by
  induction locs with
  | nil => rfl
  | cons row rest ih =>
    obtain ⟨e1, inner⟩ := row
    rw [setCell_cons]
    by_cases he : e1 = e0
    · rw [if_pos he, lookupCell_cons, lookupCell_cons]
      by_cases he2 : e1 = eid
      · rw [if_pos he2, if_pos he2]
        have hp : ¬p0 = pid := by
          intro hc
          exact h ⟨by rw [← he, he2], hc⟩
        exact innerGet_setInner_ne hp
      · rw [if_neg he2, if_neg he2, ih]
    · rw [if_neg he, lookupCell_cons, lookupCell_cons]
      by_cases he2 : e1 = eid
      · rw [if_pos he2, if_pos he2]
      · rw [if_neg he2, if_neg he2, ih]

theorem locsInit_map_fst (eids : List Nat) (pids : List String) :
    (locsInit eids pids).map Prod.fst = eids := by
  unfold locsInit
  rw [List.map_map]
  exact List.map_id' _ -- composed map is the identity on each element

theorem locsInit_inner_keys (eids : List Nat) (pids : List String) :
    ∀ row ∈ locsInit eids pids, row.2.map Prod.fst = pids := by
  intro row hrow
  unfold locsInit at hrow
  rw [List.mem_map] at hrow
  obtain ⟨e, -, hr⟩ := hrow
  rw [← hr]
  show (innerInit pids).map Prod.fst = pids
  unfold innerInit
  rw [List.map_map]
  exact List.map_id' _

theorem lookupCell_locsInit (eids : List Nat) (pids : List String) (eid : Nat)
    (pid : String) :
    lookupCell (locsInit eids pids) eid pid =
      if eid ∈ eids then (if pid ∈ pids then some 0 else none) else none := by
  induction eids with
  | nil => rfl
  | cons e rest ih =>
    show lookupCell ((e, innerInit pids) :: locsInit rest pids) eid pid = _
    rw [lookupCell_cons]
    by_cases h : e = eid
    · rw [if_pos h, if_pos (h ▸ List.mem_cons_self e rest)]
      exact innerGet_innerInit pids pid
    · rw [if_neg h, ih]
      by_cases hm : eid ∈ rest
      · rw [if_pos hm, if_pos (List.mem_cons_of_mem e hm)]
      · rw [if_neg hm, if_neg (by rw [List.mem_cons, not_or]; exact ⟨fun hc => h hc.symm, hm⟩)]

theorem fillRows_no_touch {rows : List LocRow} {locs : VisitMap} {eid : Nat}
    {pid : String} (h : ∀ r ∈ rows, ¬(r.eventid = eid ∧ r.placeid = pid)) :
    lookupCell (fillRows locs rows) eid pid = lookupCell locs eid pid := by
  induction rows generalizing locs with
  | nil => rfl
  | cons r rest ih =>
    show lookupCell (fillRows (setCell locs r.eventid r.placeid r.visits) rest) eid pid = _
    rw [ih (fun r2 hr2 => h r2 (List.mem_cons_of_mem r hr2)),
      lookupCell_setCell_other (h r (List.mem_cons_self r rest))]

theorem lookupCell_fillRows {rows : List LocRow} {locs : VisitMap} {pids : List String}
    {eid : Nat} {pid : String}
    (hnd : (rows.map (fun r => (r.eventid, r.placeid))).Nodup)
    (hkeys : ∀ row ∈ locs, row.2.map Prod.fst = pids)
    (hrows : ∀ r ∈ rows, r.eventid ∈ locs.map Prod.fst ∧ r.placeid ∈ pids) :
    lookupCell (fillRows locs rows) eid pid =
      match rows.find? (fun r => decide (r.eventid = eid) && decide (r.placeid = pid)) with
      | some r => some r.visits
      | none => lookupCell locs eid pid := by
  induction rows generalizing locs with
  | nil => rfl
  | cons r rest ih =>
    rw [List.map_cons, List.nodup_cons] at hnd
    by_cases hmatch : r.eventid = eid ∧ r.placeid = pid
    · have hpred : (decide (r.eventid = eid) && decide (r.placeid = pid)) = true := by
        rw [Bool.and_eq_true, decide_eq_true_eq, decide_eq_true_eq]
        exact hmatch
      have hfind : List.find?
          (fun r2 => decide (r2.eventid = eid) && decide (r2.placeid = pid)) (r :: rest)
          = some r := by
        rw [List.find?_cons, hpred]
      rw [hfind]
      show lookupCell (fillRows (setCell locs r.eventid r.placeid r.visits) rest) eid pid =
        some r.visits
      have hrest : ∀ r2 ∈ rest, ¬(r2.eventid = eid ∧ r2.placeid = pid) := by
        intro r2 hr2 hc
        exact hnd.1 (by
          rw [show ((r.eventid, r.placeid) : Nat × String) = (r2.eventid, r2.placeid) by
            rw [hmatch.1, hmatch.2, hc.1, hc.2]]
          exact List.mem_map_of_mem _ hr2)
      rw [fillRows_no_touch hrest, hmatch.1, hmatch.2]
      exact lookupCell_setCell_same hkeys (hmatch.1 ▸ (hrows r (List.mem_cons_self r rest)).1)
        (hmatch.2 ▸ (hrows r (List.mem_cons_self r rest)).2)
    · have hpred : (decide (r.eventid = eid) && decide (r.placeid = pid)) = false := by
        rw [Bool.and_eq_false_iff]
        rcases Decidable.not_and_iff_or_not.mp hmatch with h1 | h2
        · exact Or.inl (by rw [decide_eq_false_iff_not]; exact h1)
        · exact Or.inr (by rw [decide_eq_false_iff_not]; exact h2)
      have hfind : List.find?
          (fun r2 => decide (r2.eventid = eid) && decide (r2.placeid = pid)) (r :: rest)
          = List.find?
          (fun r2 => decide (r2.eventid = eid) && decide (r2.placeid = pid)) rest := by
        rw [List.find?_cons, hpred]
      rw [hfind]
      show lookupCell (fillRows (setCell locs r.eventid r.placeid r.visits) rest) eid pid = _
      rw [ih hnd.2 (setCell_inner_keys hkeys _ _ _)
        (fun r2 hr2 => by
          rw [setCell_map_fst]
          exact hrows r2 (List.mem_cons_of_mem r hr2))]
      rcases hf : rest.find?
          (fun r2 => decide (r2.eventid = eid) && decide (r2.placeid = pid)) with - | r2
      · simp only [hf]
        exact lookupCell_setCell_other hmatch
      · simp only [hf]

theorem find?_filter_of_imp {α : Type} {p q : α → Bool} {l : List α}
    (h : ∀ a, p a = true → q a = true) :
    (l.filter q).find? p = l.find? p := by
  induction l with
  | nil => rfl
  | cons a rest ih =>
    rw [List.filter_cons]
    by_cases hq : q a = true
    · rw [if_pos hq, List.find?_cons, List.find?_cons]
      cases hp : p a
      · exact ih
      · rfl
    · rw [if_neg hq, List.find?_cons]
      cases hp : p a
      · exact ih
      · exact absurd (h a hp) hq

/-! Further shared helper lemmas. -/

theorem fillRows_map_fst (rows : List LocRow) : ∀ locs : VisitMap,
    (fillRows locs rows).map Prod.fst = locs.map Prod.fst := by
  induction rows with
  | nil => intro locs; rfl
  | cons r rest ih =>
    intro locs
    show (fillRows (setCell locs r.eventid r.placeid r.visits) rest).map Prod.fst = _
    rw [ih, setCell_map_fst]

theorem fillRows_inner_keys {rows : List LocRow} {pids : List String} :
    ∀ {locs : VisitMap}, (∀ row ∈ locs, row.2.map Prod.fst = pids) →
      ∀ row ∈ fillRows locs rows, row.2.map Prod.fst = pids := by
  induction rows with
  | nil => intro locs h; exact h
  | cons r rest ih =>
    intro locs h
    exact ih (setCell_inner_keys h _ _ _)

theorem get_events_by_keyword_blank {dist : Point → Point → ℚ}
    {sim : List ℚ → List ℚ → ℚ} {embedQ : String → List ℚ} {query : String}
    {earliest latest : Option Int} {location : Option Point} {distLimit : WithTop ℚ}
    {db : List EventRow} (hblank : pyStrip query = "") :
    get_events_by_keyword dist sim embedQ query earliest latest location distLimit db
      = .error 400 := by
  unfold get_events_by_keyword
  rw [if_pos hblank]

theorem filter_eq_length_zero_iff {α : Type} [DecidableEq α] {l : List α} {x : α} :
    (l.filter (fun a => decide (a = x))).length = 0 ↔ x ∉ l := by
  rw [List.length_eq_zero, List.filter_eq_nil_iff]
  constructor
  · intro h hx
    exact (h x hx) (by rw [decide_eq_true_eq])
  · intro h a ha hax
    rw [decide_eq_true_eq] at hax
    exact h (hax ▸ ha)

/-! Claim theorems. -/

/-- Claim C1, counterexample: the scenario event with start 2024-06-01 and end
2024-06-03 is excluded, not included, by the search under the temporal filter
earliest 2024-06-02 and latest 2024-06-02, because the code compares start
against earliest rather than end against earliest. -/
theorem c1_counterexample :
    get_events_by_location (fun _ _ => 0) { lat := 0, lon := 0 } ⊤
      (to_datetime { year := 2024, month := 6, day := 2 })
      (to_datetime { year := 2024, month := 6, day := 2 } true)
      [{ id := 1, displayname := "E", coords := some { lat := 0, lon := 0 },
         embedding := [], start := dateVal 2024 6 1 0 0,
         end_ := dateVal 2024 6 3 23 59 }] = [] := by rfl

/-- Claim C1 (amended): the temporal filter of both search paths is a
containment filter, not an overlap filter: every returned event satisfies
earliest <= start when an earliest bound is given, and end <= latest when a
latest bound is given (an event whose interval merely overlaps the window,
such as the scenario event, is excluded). -/
theorem c1_amended_temporal_containment
    (dist : Point → Point → ℚ) (sim : List ℚ → List ℚ → ℚ) (embedQ : String → List ℚ)
    (location : Point) (locOpt : Option Point) (distLimit : WithTop ℚ)
    (earliest latest : Option Int) (db : List EventRow) (query : String) :
    (∀ ev ∈ get_events_by_location dist location distLimit earliest latest db,
        (∀ e0, earliest = some e0 → e0 ≤ ev.start) ∧
        (∀ l0, latest = some l0 → ev.end_ ≤ l0)) ∧
    (∀ ev ∈ kwRanked dist sim embedQ query earliest latest locOpt distLimit db,
        (∀ e0, earliest = some e0 → e0 ≤ ev.start) ∧
        (∀ l0, latest = some l0 → ev.end_ ≤ l0)) := by
  constructor
  · intro ev hev
    rw [get_events_by_location_mem, locCandidates_mem] at hev
    obtain ⟨r, hr, c, hc, ht, hd, hev⟩ := hev
    subst hev
    exact ⟨fun e0 he => tempOk_earliest ht he, fun l0 hl => tempOk_latest ht hl⟩
  · intro ev hev
    rw [kwRanked_mem, kwCandidates_mem] at hev
    obtain ⟨r, hr, ht, hs, hev⟩ := hev
    subst hev
    exact ⟨fun e0 he => tempOk_earliest ht he, fun l0 hl => tempOk_latest ht hl⟩

/-- Claim C1 witness: a concrete search with both bounds given returns an
event, and that event satisfies the containment bounds. -/
theorem c1_witness :
    (({ id := 1, displayname := "E", distance := 0, location := { lat := 0, lon := 0 },
        start := 10, end_ := 20 } : LocEventOut) ∈
      get_events_by_location (fun _ _ => 0) { lat := 0, lon := 0 } ⊤ (some 5) (some 30)
        [{ id := 1, displayname := "E", coords := some { lat := 0, lon := 0 },
           embedding := [], start := 10, end_ := 20 }]) ∧
    (5 : Int) ≤ ({ id := 1, displayname := "E", distance := 0,
                   location := { lat := 0, lon := 0 }, start := 10,
                   end_ := 20 } : LocEventOut).start ∧
    ({ id := 1, displayname := "E", distance := 0, location := { lat := 0, lon := 0 },
       start := 10, end_ := 20 } : LocEventOut).end_ ≤ 30 := by
  have h := (c1_amended_temporal_containment (fun _ _ => 0) (fun _ _ => 0) (fun _ => [])
    { lat := 0, lon := 0 } none ⊤ (some 5) (some 30)
    [{ id := 1, displayname := "E", coords := some { lat := 0, lon := 0 },
       embedding := [], start := 10, end_ := 20 }] "x").1
    { id := 1, displayname := "E", distance := 0, location := { lat := 0, lon := 0 },
      start := 10, end_ := 20 } (by decide)
  exact ⟨by decide, h.1 5 rfl, h.2 30 rfl⟩

/-- Claim C5: in a location-only search every returned event carries the
distance from the search point to its coordinates, that distance is within
the radius, every stored event with coordinates inside the radius that passes
the temporal filter appears in the result, and the result is sorted
non-decreasing by distance. -/
theorem c5_location_search (dist : Point → Point → ℚ) (location : Point) (radius : ℚ)
    (earliest latest : Option Int) (db : List EventRow) :
    (∀ ev ∈ get_events_by_location dist location (radius : WithTop ℚ) earliest latest db,
      ev.distance ≤ radius ∧ ev.distance = dist location ev.location ∧
      ∃ r ∈ db, r.coords = some ev.location ∧ r.id = ev.id) ∧
    (∀ r ∈ db, ∀ c, r.coords = some c → tempOk earliest latest r = true →
      dist location c ≤ radius →
      mkLocOut (dist location c) c r ∈
        get_events_by_location dist location (radius : WithTop ℚ) earliest latest db) ∧
    (get_events_by_location dist location (radius : WithTop ℚ) earliest latest db).Pairwise
      (fun a b => a.distance ≤ b.distance) := by
  refine ⟨?_, ?_, ?_⟩
  · intro ev hev
    rw [get_events_by_location_mem, locCandidates_mem] at hev
    obtain ⟨r, hr, c, hc, ht, hd, hev⟩ := hev
    subst hev
    exact ⟨WithTop.coe_le_coe.mp hd, rfl, r, hr, hc, rfl⟩
  · intro r hr c hc ht hd
    rw [get_events_by_location_mem, locCandidates_mem]
    exact ⟨r, hr, c, hc, ht, WithTop.coe_le_coe.mpr hd, rfl⟩
  · have h := pySortByKey_pairwise (fun e : LocEventOut => e.distance)
      (locCandidates dist location (radius : WithTop ℚ) earliest latest db)
    exact h

/-- Claim C5 witness: a concrete location search returns an event within the
radius, includes the qualifying row, and is sorted. -/
theorem c5_witness :
    (∀ ev ∈ get_events_by_location (fun _ _ => 3) { lat := 0, lon := 0 }
        ((10 : ℚ) : WithTop ℚ) none none
        [{ id := 1, displayname := "E", coords := some { lat := 1, lon := 1 },
           embedding := [], start := 0, end_ := 0 }],
      ev.distance ≤ 10) ∧
    mkLocOut 3 { lat := 1, lon := 1 }
      { id := 1, displayname := "E", coords := some { lat := 1, lon := 1 },
        embedding := [], start := 0, end_ := 0 } ∈
      get_events_by_location (fun _ _ => 3) { lat := 0, lon := 0 }
        ((10 : ℚ) : WithTop ℚ) none none
        [{ id := 1, displayname := "E", coords := some { lat := 1, lon := 1 },
           embedding := [], start := 0, end_ := 0 }] := by
  have h := c5_location_search (fun _ _ => 3) { lat := 0, lon := 0 } 10 none none
    [{ id := 1, displayname := "E", coords := some { lat := 1, lon := 1 },
       embedding := [], start := 0, end_ := 0 }]
  refine ⟨fun ev hev => (h.1 ev hev).1, ?_⟩
  exact h.2.1 _ (by decide) { lat := 1, lon := 1 } rfl (by decide) (by decide)

/-- Claim C6, counterexample: with both a query and a location given, an event
with null coordinates is excluded from the keyword search result, rather than
included with null distance and location fields as the claim states. -/
theorem c6_counterexample :
    get_events_by_keyword (fun _ _ => 0) (fun _ _ => 0) (fun _ => []) "concert"
      none none (some { lat := 0, lon := 0 }) ⊤
      [{ id := 1, displayname := "E", coords := none, embedding := [],
         start := 0, end_ := 0 }] = .ok ([], 0) := by rfl

/-- Claim C6 (amended): when both a query and a location are given, the
keyword search excludes events with null coordinates and events beyond the
distance bound; every returned event has its location field set and its
distance field set to the distance from the search point, which is within the
bound. -/
theorem c6_amended_keyword_spatial (dist : Point → Point → ℚ)
    (sim : List ℚ → List ℚ → ℚ) (embedQ : String → List ℚ) (query : String)
    (earliest latest : Option Int) (l : Point) (distLimit : WithTop ℚ)
    (db : List EventRow) :
    ∀ ev ∈ kwRanked dist sim embedQ query earliest latest (some l) distLimit db,
      ∃ c d, ev.location = some c ∧ ev.distance = some d ∧ d = dist l c ∧
        ((d : WithTop ℚ) ≤ distLimit) := by
  intro ev hev
  rw [kwRanked_mem, kwCandidates_mem] at hev
  obtain ⟨r, hr, ht, hs, hev⟩ := hev
  obtain ⟨c, hc, hd⟩ := kwSpatialOk_some hs
  subst hev
  refine ⟨c, dist l c, ?_, ?_, rfl, hd⟩
  · show r.coords = some c
    exact hc
  · show (match some l, r.coords with
      | some l2, some c2 => some (dist l2 c2)
      | _, _ => none) = some (dist l c)
    rw [hc]

/-- Claim C6 witness: in a concrete keyword search with a location, the
returned event carries concrete location and distance annotations. -/
theorem c6_witness :
    ∃ c d, (mkKwOut (fun _ _ => 2) (some { lat := 0, lon := 0 })
      { id := 1, displayname := "E", coords := some { lat := 1, lon := 1 },
        embedding := [], start := 0, end_ := 0 }).location = some c ∧
      (mkKwOut (fun _ _ => 2) (some { lat := 0, lon := 0 })
        { id := 1, displayname := "E", coords := some { lat := 1, lon := 1 },
          embedding := [], start := 0, end_ := 0 }).distance = some d ∧
      d = 2 ∧ ((d : WithTop ℚ) ≤ ((10 : ℚ) : WithTop ℚ)) := by
  have h := c6_amended_keyword_spatial (fun _ _ => 2) (fun _ _ => 0) (fun _ => []) "x"
    none none { lat := 0, lon := 0 } ((10 : ℚ) : WithTop ℚ)
    [{ id := 1, displayname := "E", coords := some { lat := 1, lon := 1 },
       embedding := [], start := 0, end_ := 0 }]
    (mkKwOut (fun _ _ => 2) (some { lat := 0, lon := 0 })
      { id := 1, displayname := "E", coords := some { lat := 1, lon := 1 },
        embedding := [], start := 0, end_ := 0 }) (by decide)
  obtain ⟨c, d, h1, h2, h3, h4⟩ := h
  exact ⟨c, d, h1, h2, h3, h4⟩

/-- Claim C10: a search request supplying lat, lon, and an empty or
whitespace-only query fails with 400, no matter how the other arguments parse
and even though location plus radius alone would be a sufficient criterion. -/
theorem c10_blank_query_rejected (dist : Point → Point → ℚ)
    (sim : List ℚ → List ℚ → ℚ) (embedQ : String → List ℚ)
    (parseFloat : String → Option ℚ) (earliestR latestR : Except Unit (Option Int))
    (args : SearchArgs) (db : List EventRow) (lats lons q : String)
    (hlat : args.lat = some lats) (hlon : args.lon = some lons)
    (hq : args.query = some q) (hblank : pyStrip q = "") :
    event_search dist sim embedQ parseFloat earliestR latestR args db = .error 400 := by
  unfold event_search
  rcases earliestR with - | startdt
  · rfl
  rcases latestR with - | enddt
  · rfl
  rw [hlat, hlon]
  show event_search_latlon dist sim embedQ parseFloat startdt enddt args.query args.radius
    lats lons db = Except.error 400
  rw [hq]
  unfold event_search_latlon
  rcases parseFloat lats with - | la
  · rfl
  rcases parseFloat lons with - | lo
  · rfl
  show (match parseRadius parseFloat args.radius with
        | none => (Except.error 400 : Except Nat SearchOut)
        | some rad =>
          if rad < 0 then Except.error 400
          else (get_events_by_keyword dist sim embedQ q startdt enddt
            (some { lat := la, lon := lo }) rad db).map
              (fun res => SearchOut.byKeyword res.1)) = Except.error 400
  rcases parseRadius parseFloat args.radius with - | rad
  · rfl
  · show (if rad < 0 then (Except.error 400 : Except Nat SearchOut)
        else (get_events_by_keyword dist sim embedQ q startdt enddt
          (some { lat := la, lon := lo }) rad db).map
            (fun res => SearchOut.byKeyword res.1)) = Except.error 400
    by_cases hneg : rad < 0
    · rw [if_pos hneg]
    · rw [if_neg hneg, get_events_by_keyword_blank hblank]
      rfl

/-- Claim C10 witness: a concrete request with lat, lon and a whitespace-only
query fails with 400. -/
theorem c10_witness :
    event_search (fun _ _ => 0) (fun _ _ => 0) (fun _ => []) (fun _ => some 0)
      (.ok none) (.ok none)
      { query := some " ", lat := some "1", lon := some "2", radius := none } []
      = .error 400 :=
  c10_blank_query_rejected (fun _ _ => 0) (fun _ _ => 0) (fun _ => []) (fun _ => some 0)
    (.ok none) (.ok none)
    { query := some " ", lat := some "1", lon := some "2", radius := none } []
    "1" "2" " " rfl rfl rfl (by rfl)

/-- Claim C2, counterexample: for place A at provider index 0 with 3 visits
and place B at index 1 with 0 visits, the ascending sort by visits + index
puts B (score 1) before A (score 3), so A ranks second, not first as the
claim asserts. -/
theorem c2_counterexample :
    (recommendRanked
      [{ id := "A", name := "A", address := "a", location := { lat := 0, lon := 0 } },
       { id := "B", name := "B", address := "b", location := { lat := 0, lon := 0 } }]
      [{ eventid := 1, placeid := "A", visits := 3 }] [1]).map (fun r => r.place.name)
      = ["B", "A"] := by decide

/-- Claim C2 (amended): the recommendation list is sorted ascending by
visits + index, where index is the provider position and visits is the sum of
visit counters over the attended events of the requesting user; for equal
visits the place with the lower provider index ranks first; in the A and B
scenario the ascending order puts B (score 1) before A (score 3). -/
theorem c2_amended_recommend_ranking (ps : List ProviderPlace) (locs : List LocRow)
    (events : List Nat) (hn : (ps.map (fun p => p.id)).Nodup) :
    (recommendRanked ps locs events).Pairwise
      (fun a b => a.visits + a.index ≤ b.visits + b.index) ∧
    (∀ r ∈ recommendRanked ps locs events,
      ps[r.index]? = some r.place ∧ r.visits = userVisits locs events r.place.id) ∧
    (∀ (i j : Nat) (hi : i < (recommendRanked ps locs events).length)
        (hj : j < (recommendRanked ps locs events).length),
      ((recommendRanked ps locs events).get ⟨i, hi⟩).visits
          = ((recommendRanked ps locs events).get ⟨j, hj⟩).visits →
      ((recommendRanked ps locs events).get ⟨i, hi⟩).index
          < ((recommendRanked ps locs events).get ⟨j, hj⟩).index →
      i < j) := by
  refine ⟨recommendRanked_pairwise ps locs events, ?_, ?_⟩
  · intro r hr
    exact recommendRanked_mem hn hr
  · intro i j hi hj hvis hidx
    rcases Nat.lt_trichotomy i j with h | h | h
    · exact h
    · exfalso
      subst h
      exact lt_irrefl _ hidx
    · exfalso
      have hp := (List.pairwise_iff_get.mp (recommendRanked_pairwise ps locs events))
        ⟨j, hj⟩ ⟨i, hi⟩ h
      simp only at hp
      omega

/-- Claim C2 witness: the amended ranking facts instantiated at the concrete
A and B scenario. -/
theorem c2_witness :
    ((([{ id := "A", name := "A", address := "a", location := { lat := 0, lon := 0 } },
        { id := "B", name := "B", address := "b", location := { lat := 0, lon := 0 } }] :
        List ProviderPlace).map (fun p => p.id)).Nodup) ∧
    (recommendRanked
      [{ id := "A", name := "A", address := "a", location := { lat := 0, lon := 0 } },
       { id := "B", name := "B", address := "b", location := { lat := 0, lon := 0 } }]
      [{ eventid := 1, placeid := "A", visits := 3 }] [1]).Pairwise
      (fun a b => a.visits + a.index ≤ b.visits + b.index) :=
  ⟨by decide, (c2_amended_recommend_ranking
    [{ id := "A", name := "A", address := "a", location := { lat := 0, lon := 0 } },
     { id := "B", name := "B", address := "b", location := { lat := 0, lon := 0 } }]
    [{ eventid := 1, placeid := "A", visits := 3 }] [1] (by decide)).1⟩

/-- Claim C4: with a non-blank query, when at least two candidates remain the
keyword search calls the embedding provider exactly once (the call counter of
the model is 1) and returns the candidates sorted so that cosine similarity
to the query embedding is non-increasing along the output; with fewer than
two candidates no ranking happens (counter 0, scan order kept). -/
theorem c4_keyword_ranking (dist : Point → Point → ℚ) (sim : List ℚ → List ℚ → ℚ)
    (embedQ : String → List ℚ) (query : String) (earliest latest : Option Int)
    (location : Option Point) (distLimit : WithTop ℚ) (db : List EventRow)
    (hq : ¬pyStrip query = "") :
    (2 ≤ (kwCandidates dist location distLimit earliest latest db).length →
      get_events_by_keyword dist sim embedQ query earliest latest location distLimit db
        = .ok ((kwRanked dist sim embedQ query earliest latest location distLimit db).map
            dropEmbedding, 1) ∧
      (kwRanked dist sim embedQ query earliest latest location distLimit db).Pairwise
        (fun a b => sim (embedQ (kwQueryText query)) b.embedding
          ≤ sim (embedQ (kwQueryText query)) a.embedding)) ∧
    ((kwCandidates dist location distLimit earliest latest db).length < 2 →
      get_events_by_keyword dist sim embedQ query earliest latest location distLimit db
        = .ok ((kwCandidates dist location distLimit earliest latest db).map
            dropEmbedding, 0)) := by
  constructor
  · intro h2
    constructor
    · unfold get_events_by_keyword
      rw [if_neg hq]
      show (if 2 ≤ (kwCandidates dist location distLimit earliest latest db).length
          then (Except.ok ((kwRanked dist sim embedQ query earliest latest location
              distLimit db).map dropEmbedding, 1) : Except Nat (List KwEventFinal × Nat))
          else Except.ok ((kwCandidates dist location distLimit earliest latest db).map
            dropEmbedding, 0)) = _
      rw [if_pos h2]
    · unfold kwRanked
      show List.Pairwise _
        (if 2 ≤ (kwCandidates dist location distLimit earliest latest db).length
         then pySortByKey
           (fun e => -(sim (embedQ (kwQueryText query)) e.embedding))
           (kwCandidates dist location distLimit earliest latest db)
         else kwCandidates dist location distLimit earliest latest db)
      rw [if_pos h2]
      have h := pySortByKey_pairwise
        (fun e : KwEventOut => -(sim (embedQ (kwQueryText query)) e.embedding))
        (kwCandidates dist location distLimit earliest latest db)
      refine h.imp ?_
      intro a b hab
      have hab2 : -(sim (embedQ (kwQueryText query)) a.embedding)
          ≤ -(sim (embedQ (kwQueryText query)) b.embedding) := hab
      exact neg_le_neg_iff.mp hab2
  · intro h2
    unfold get_events_by_keyword
    rw [if_neg hq]
    show (if 2 ≤ (kwCandidates dist location distLimit earliest latest db).length
        then (Except.ok ((kwRanked dist sim embedQ query earliest latest location
            distLimit db).map dropEmbedding, 1) : Except Nat (List KwEventFinal × Nat))
        else Except.ok ((kwCandidates dist location distLimit earliest latest db).map
          dropEmbedding, 0)) = _
    rw [if_neg (by omega)]

/-- Claim C4 witness: a concrete two-candidate keyword search takes the
ranking branch with embedding call counter one. -/
theorem c4_witness :
    2 ≤ (kwCandidates (fun _ _ => 0) (none : Option Point) ⊤ none none
      [{ id := 1, displayname := "E1", coords := none, embedding := [1],
         start := 0, end_ := 0 },
       { id := 2, displayname := "E2", coords := none, embedding := [5],
         start := 0, end_ := 0 }]).length ∧
    get_events_by_keyword (fun _ _ => 0) (fun _ b => b.headD 0) (fun _ => []) "x"
      none none none ⊤
      [{ id := 1, displayname := "E1", coords := none, embedding := [1],
         start := 0, end_ := 0 },
       { id := 2, displayname := "E2", coords := none, embedding := [5],
         start := 0, end_ := 0 }]
      = .ok ((kwRanked (fun _ _ => 0) (fun _ b => b.headD 0) (fun _ => []) "x"
          none none none ⊤
          [{ id := 1, displayname := "E1", coords := none, embedding := [1],
             start := 0, end_ := 0 },
           { id := 2, displayname := "E2", coords := none, embedding := [5],
             start := 0, end_ := 0 }]).map dropEmbedding, 1) :=
  ⟨by decide, ((c4_keyword_ranking (fun _ _ => 0) (fun _ b => b.headD 0) (fun _ => [])
    "x" none none none ⊤
    [{ id := 1, displayname := "E1", coords := none, embedding := [1],
       start := 0, end_ := 0 },
     { id := 2, displayname := "E2", coords := none, embedding := [5],
       start := 0, end_ := 0 }] (by decide)).1 (by decide)).1⟩

/-- Claim C3, counterexample: with one event and an empty place list, the
visits component maps the event id to an empty inner dict, so it is not the
empty map the claim requires when either axis is empty. -/
theorem c3_counterexample :
    (get_location_data [{ id := 1, displayname := "E" }] [] []).visits = [(1, [])] ∧
    (get_location_data [{ id := 1, displayname := "E" }] [] []).visits ≠ [] := by
  constructor
  · decide
  · decide

/-- Claim C3 (amended): the visit matrix has outer keys exactly the filtered
event ids and inner keys exactly the filtered place ids; every cell holds the
recorded visit count, or zero when no record exists; the visits component is
the empty map when the event axis is empty, and maps every event id to an
empty inner dict when only the place axis is empty. -/
theorem c3_amended_crosstab (events : List EventSummary) (places : List PlaceSummary)
    (db : List LocRow) :
    ((get_location_data events places db).visits.map Prod.fst
      = events.map (fun e => e.id)) ∧
    (∀ row ∈ (get_location_data events places db).visits,
      row.2.map Prod.fst = places.map (fun p => p.id)) ∧
    (events = [] → (get_location_data events places db).visits = []) ∧
    (places = [] →
      (get_location_data events places db).visits
        = events.map (fun e => (e.id, ([] : InnerMap)))) ∧
    ((db.map (fun r => (r.eventid, r.placeid))).Nodup →
      ∀ e ∈ events.map (fun e2 => e2.id), ∀ p ∈ places.map (fun p2 => p2.id),
        lookupCell (get_location_data events places db).visits e p =
          some (match db.find?
              (fun r => decide (r.eventid = e) && decide (r.placeid = p)) with
            | some r => r.visits
            | none => 0)) := by
  have hvis : (get_location_data events places db).visits =
      (if !(events.map (fun e => e.id)).isEmpty
          && !(places.map (fun p => p.id)).isEmpty
       then fillRows (locsInit (events.map (fun e => e.id))
           (places.map (fun p => p.id)))
         (db.filter (fun r => decide (r.eventid ∈ events.map (fun e => e.id)) &&
            decide (r.placeid ∈ places.map (fun p => p.id))))
       else locsInit (events.map (fun e => e.id)) (places.map (fun p => p.id))) := rfl
  refine ⟨?_, ?_, ?_, ?_, ?_⟩
  · rw [hvis]
    by_cases hc : (!(events.map (fun e => e.id)).isEmpty
        && !(places.map (fun p => p.id)).isEmpty) = true
    · rw [if_pos hc, fillRows_map_fst, locsInit_map_fst]
    · rw [if_neg hc, locsInit_map_fst]
  · rw [hvis]
    by_cases hc : (!(events.map (fun e => e.id)).isEmpty
        && !(places.map (fun p => p.id)).isEmpty) = true
    · rw [if_pos hc]
      exact fillRows_inner_keys (locsInit_inner_keys _ _)
    · rw [if_neg hc]
      exact locsInit_inner_keys _ _
  · intro hev
    subst hev
    rfl
  · intro hpl
    subst hpl
    rw [hvis]
    have hcond : (!(events.map (fun e => e.id)).isEmpty
        && !(([] : List PlaceSummary).map (fun p => p.id)).isEmpty) = false := by
      rw [Bool.and_eq_false_iff]
      exact Or.inr rfl
    rw [hcond]
    show locsInit (events.map (fun e => e.id)) [] =
      events.map (fun e => (e.id, ([] : InnerMap)))
    unfold locsInit innerInit
    rw [List.map_map]
    rfl
  · intro hnd e he p hp
    rw [hvis]
    have he2 : (events.map (fun e2 => e2.id)).isEmpty = false := by
      rw [List.isEmpty_eq_false]
      exact List.ne_nil_of_mem he
    have hp2 : (places.map (fun p2 => p2.id)).isEmpty = false := by
      rw [List.isEmpty_eq_false]
      exact List.ne_nil_of_mem hp
    rw [he2, hp2]
    show lookupCell (fillRows (locsInit (events.map (fun e2 => e2.id))
        (places.map (fun p2 => p2.id)))
      (db.filter (fun r => decide (r.eventid ∈ events.map (fun e2 => e2.id)) &&
         decide (r.placeid ∈ places.map (fun p2 => p2.id))))) e p = _
    have hndf : (((db.filter (fun r => decide (r.eventid ∈ events.map (fun e2 => e2.id)) &&
        decide (r.placeid ∈ places.map (fun p2 => p2.id)))).map
          (fun r => (r.eventid, r.placeid))).Nodup) :=
      List.Nodup.sublist (List.Sublist.map _ (List.filter_sublist db)) hnd
    have hrows : ∀ r ∈ db.filter (fun r =>
        decide (r.eventid ∈ events.map (fun e2 => e2.id)) &&
        decide (r.placeid ∈ places.map (fun p2 => p2.id))),
        r.eventid ∈ (locsInit (events.map (fun e2 => e2.id))
          (places.map (fun p2 => p2.id))).map Prod.fst ∧
        r.placeid ∈ places.map (fun p2 => p2.id) := by
      intro r hr
      rw [List.mem_filter, Bool.and_eq_true, decide_eq_true_eq, decide_eq_true_eq] at hr
      rw [locsInit_map_fst]
      exact ⟨hr.2.1, hr.2.2⟩
    rw [lookupCell_fillRows hndf (locsInit_inner_keys _ _) hrows]
    rw [find?_filter_of_imp (fun a ha => by
      rw [Bool.and_eq_true, decide_eq_true_eq, decide_eq_true_eq] at ha
      rw [Bool.and_eq_true, decide_eq_true_eq, decide_eq_true_eq]
      exact ⟨ha.1 ▸ he, ha.2 ▸ hp⟩)]
    rcases hfind : db.find? (fun r => decide (r.eventid = e) && decide (r.placeid = p))
        with - | r
    · simp only [hfind]
      rw [lookupCell_locsInit, if_pos he, if_pos hp]
    · simp only [hfind]

/-- Claim C3 witness: a concrete recorded visit count is returned for its
cell by the amended theorem. -/
theorem c3_witness :
    lookupCell (get_location_data [{ id := 1, displayname := "E" }]
      [{ id := "P", name := "p", coords := { lat := 0, lon := 0 }, types := [] }]
      [{ eventid := 1, placeid := "P", visits := 5 }]).visits 1 "P" = some 5 :=
  (c3_amended_crosstab [{ id := 1, displayname := "E" }]
    [{ id := "P", name := "p", coords := { lat := 0, lon := 0 }, types := [] }]
    [{ eventid := 1, placeid := "P", visits := 5 }]).2.2.2.2 (by decide) 1 (by decide)
    "P" (by decide)

/-- Claim C7: the validation does not enforce start before end: line 48 of
event.py assigns the parsed end datetime to startdt instead of enddt, so the
order check on line 51 never fires. The concrete input with start 2024-06-02
strictly after end 2024-06-01 validates with an empty error list, and the
order error message can never appear in any validation output. -/
theorem c7_end_order_check_dead :
    validate_create_inputs "Party" { year := 2024, month := 6, day := 2 }
      { year := 2024, month := 6, day := 1 } none none = [] ∧
    ∀ (dn : String) (s e : DateJson) (d : Option String) (l : Option LocJson),
      ({ field := "end", description := "End date cannot be earlier than start date." } :
        FieldError) ∉ validate_create_inputs dn s e d l := by
  constructor
  · decide
  · intro dn s e d l h
    unfold validate_create_inputs at h
    rcases d with - | dsc <;> rcases l with - | loc <;>
      rcases hs : to_datetime s with - | v1 <;>
      rcases he2 : to_datetime e true with - | v2 <;>
      split_ifs at h <;>
      simp_all

/-- Claim C8: the default radius (no rad argument) is 16093.44 metres, ten
miles; but for every supplied rad string the code multiplies the string by
the float 1609.344, which raises TypeError, and the except clause catches
only ValueError, so every request with a rad argument fails. -/
theorem c8_radius_conversion :
    (∀ parse : String → Option ℚ, recommendRadius parse none = .ok (16093.44 : ℚ)) ∧
    (∀ (parse : String → Option ℚ) (s : String),
      recommendRadius parse (some s) = .error .typeError) :=
  ⟨fun _ => rfl, fun _ _ => rfl⟩

/-- Claim C9: adding oneself to an existing event inserts exactly one
attendee row and answers 201; repeating the identical request leaves the
relation unchanged and answers 204; adding anyone else answers 403; and the
at-most-one-row-per-pair invariant is preserved. -/
theorem c9_event_add_user_idempotent (uid eventid : Nat) (db : DBState)
    (hev : eventid ∈ db.events) :
    (∀ other, other ≠ uid → event_add_user uid eventid other db = .error 403) ∧
    ((uid, eventid) ∉ db.attendees →
      event_add_user uid eventid uid db =
        .ok (201, { db with attendees := db.attendees ++ [(uid, eventid)] }) ∧
      event_add_user uid eventid uid
          { db with attendees := db.attendees ++ [(uid, eventid)] } =
        .ok (204, { db with attendees := db.attendees ++ [(uid, eventid)] })) ∧
    ((uid, eventid) ∈ db.attendees → event_add_user uid eventid uid db = .ok (204, db)) ∧
    (∀ st db2, event_add_user uid eventid uid db = .ok (st, db2) →
      db.attendees.Nodup → db2.attendees.Nodup) := by
  have hevents : ¬(db.events.filter (fun e => decide (e = eventid))).length = 0 := by
    rw [filter_eq_length_zero_iff]
    exact fun h => h hev
  refine ⟨?_, ?_, ?_, ?_⟩
  · intro other hother
    unfold event_add_user
    rw [if_neg hevents, if_pos hother]
  · intro hmem
    constructor
    · unfold event_add_user
      rw [if_neg hevents, if_neg (fun h : uid ≠ uid => h rfl),
        if_pos (by rw [filter_eq_length_zero_iff]; exact hmem)]
    · unfold event_add_user
      rw [if_neg hevents, if_neg (fun h : uid ≠ uid => h rfl),
        if_neg (by
          rw [filter_eq_length_zero_iff]
          exact fun h => h (List.mem_append_right _ (List.mem_singleton.mpr rfl)))]
  · intro hmem
    unfold event_add_user
    rw [if_neg hevents, if_neg (fun h : uid ≠ uid => h rfl),
      if_neg (by rw [filter_eq_length_zero_iff]; exact fun h => h hmem)]
  · intro st db2 hok hnd
    unfold event_add_user at hok
    rw [if_neg hevents, if_neg (fun h : uid ≠ uid => h rfl)] at hok
    by_cases hmem : (uid, eventid) ∈ db.attendees
    · rw [if_neg (by rw [filter_eq_length_zero_iff]; exact fun h => h hmem)] at hok
      rw [Except.ok.injEq, Prod.mk.injEq] at hok
      rw [← hok.2]
      exact hnd
    · rw [if_pos (by rw [filter_eq_length_zero_iff]; exact hmem)] at hok
      rw [Except.ok.injEq, Prod.mk.injEq] at hok
      rw [← hok.2]
      show (db.attendees ++ [(uid, eventid)]).Nodup
      exact hnd.append (List.nodup_singleton _)
        (List.disjoint_singleton.mpr hmem)

/-- Claim C9 witness: concrete first and second identical PUT, and a 403 for
another user, on a one-event database. -/
theorem c9_witness :
    event_add_user 3 7 3 { events := [7], attendees := [] } =
      .ok (201, { events := [7], attendees := [(3, 7)] }) ∧
    event_add_user 3 7 3 { events := [7], attendees := [(3, 7)] } =
      .ok (204, { events := [7], attendees := [(3, 7)] }) ∧
    event_add_user 3 7 4 { events := [7], attendees := [] } = .error 403 := by
  have h := c9_event_add_user_idempotent 3 7 { events := [7], attendees := [] }
    (by decide)
  have h2 := h.2.1 (by decide)
  exact ⟨h2.1, h2.2, h.1 4 (by decide)⟩

end Tourism
